import Mathlib

/-!
Verification of the packaging script `setup.py` of the repository
`SmartMachinesEfficiencyPrediction`.

The script is:

  from setuptools import setup,find_packages

  with open("requirements.txt") as f:
      requirements = f.read().splitlines()

  setup(
      name="Machine Efficiency Prediction",
      version="0.1",
      author="David G",
      packages=find_packages(),
      install_requires = requirements,
  )

We embed the script shallowly.  The filesystem read is modelled by an
`Option String` (`none` = the manifest file is missing or unreadable, in
which case Python's `open` raises `OSError`; `some contents` = the file is
readable with the given contents).  Python's `str.splitlines` is modelled
over its full set of line boundaries — `\n`, `\r`, `\r\n`, `\x0b` (VT),
`\x0c` (FF), `\x1c` (FS), `\x1d` (GS), `\x1e` (RS), `\x85` (NEL),
` ` (LINE SEPARATOR) and ` ` (PARAGRAPH SEPARATOR): it splits at
each boundary, removes the terminators, keeps blank lines as empty entries
and produces no trailing empty entry after a final terminator.
-/

/-- The characters at which Python's `str.splitlines` splits: `\n`, `\r`,
`\x0b` (VT), `\x0c` (FF), `\x1c` (FS), `\x1d` (GS), `\x1e` (RS), `\x85`
(NEL), ` ` (LINE SEPARATOR), ` ` (PARAGRAPH SEPARATOR).  The
two-character sequence `\r\n` counts as a single boundary. -/
def isLineBreak (c : Char) : Bool :=
  c == '\n' || c == '\r' || c == '\x0b' || c == '\x0c' ||
  c == '\x1c' || c == '\x1d' || c == '\x1e' ||
  c == '\x85' || c == ' ' || c == ' '

/-- Worker for `splitlines`: `acc` holds the characters of the current
line in reverse.  At a line-break character the accumulated line is
emitted, with `\r` immediately followed by `\n` consumed as one boundary;
at the end of input the accumulated line is emitted only if it is
non-empty (so a trailing terminator yields no extra empty entry, exactly
as in Python). -/
def splitlinesAux : List Char → List Char → List String
  | acc, [] => if acc.isEmpty then [] else [String.mk acc.reverse]
  | acc, [c] =>
      if isLineBreak c then [String.mk acc.reverse]
      else splitlinesAux (c :: acc) []
  | acc, c :: d :: cs =>
      if isLineBreak c then
        if c == '\r' && d == '\n' then String.mk acc.reverse :: splitlinesAux [] cs
        else String.mk acc.reverse :: splitlinesAux [] (d :: cs)
      else splitlinesAux (c :: acc) (d :: cs)

/-- Embedding of Python's `str.splitlines`. -/
def splitlines (s : String) : List String :=
  splitlinesAux [] s.data

/-- `requirements = f.read().splitlines()` (line 4 of `setup.py`): the
requirements list parsed from the manifest's contents. -/
def requirements (contents : String) : List String :=
  splitlines contents

example : splitlines "" = [] := by decide
example : splitlines "numpy==1.21.0\npandas\n" = ["numpy==1.21.0", "pandas"] := by decide
example : splitlines "\n" = [""] := by decide
example : splitlines "a\r\nb\rc" = ["a", "b", "c"] := by decide
example : splitlines "a\n\nb" = ["a", "", "b"] := by decide
example : splitlines "a\x0bb" = ["a", "b"] := by decide
example : splitlines "a\x0cb" = ["a", "b"] := by decide
example : splitlines "a\x1cb\x1dc\x1ed" = ["a", "b", "c", "d"] := by decide
example : splitlines "a\x85b c d" = ["a", "b", "c", "d"] := by decide
example : splitlines "a\r\rb" = ["a", "", "b"] := by decide

/-- The single error kind of the program: Python's `open` raising
`OSError` when `requirements.txt` is missing or unreadable.  The spec
calls it `ManifestUnreadable`. -/
inductive PyError where
  | manifestUnreadable
deriving Repr, DecidableEq

/-- The metadata record passed to the `setup(...)` call (lines 6–12 of
`setup.py`): exactly the fields `name`, `version`, `author`, `packages`
and `install_requires`. -/
structure Metadata where
  name : String
  version : String
  author : String
  packages : List String
  install_requires : List String
deriving Repr, DecidableEq

/-- `setuptools.find_packages()` scans the source tree for directories
with an `__init__.py`.  The repository contains only `setup.py` and no
package directories, so discovery yields the empty list. -/
def find_packages : List String := []

/-- Shallow embedding of running `setup.py`.  The argument is the result
of attempting to read `requirements.txt`: `none` when the file is missing
or unreadable (Python's `open` raises, modelled as `Except.error`), and
`some contents` when it is readable.  On success the script builds the
metadata record of lines 6–12 and passes it to `setup`. -/
def runSetup (file : Option String) : Except PyError Metadata :=
  match file with
  | none => .error .manifestUnreadable
  | some contents =>
      .ok { name := "Machine Efficiency Prediction"
            version := "0.1"
            author := "David G"
            packages := find_packages
            install_requires := requirements contents }

/-- The package registrations performed by a run of the script: the
`setup(...)` call is reached exactly when the manifest read succeeded, so
a failed run registers nothing. -/
def registrations (file : Option String) : List Metadata :=
  match runSetup file with
  | .ok m => [m]
  | .error _ => []

/-- The characters Python's `str.strip()` removes: exactly those with
`str.isspace()` true — `\t`–`\r` (0x09–0x0d), `\x1c`–`\x1f`, space,
`\x85`, `\xa0`, ` `, ` `–` `, ` `, ` `,
` `, ` `, `　`. -/
def isPySpace (c : Char) : Bool :=
  (0x09 ≤ c.toNat && c.toNat ≤ 0x0d) || (0x1c ≤ c.toNat && c.toNat ≤ 0x1f) ||
  c == ' ' || c == '\x85' || c == '\xa0' || c == ' ' ||
  (0x2000 ≤ c.toNat && c.toNat ≤ 0x200a) ||
  c == ' ' || c == ' ' || c == ' ' || c == ' ' || c == '　'

/-- Embedding of Python's `str.strip()`: remove leading and trailing
whitespace. -/
def pyStrip (s : String) : String :=
  String.mk (((s.data.dropWhile isPySpace).reverse.dropWhile isPySpace).reverse)

/-- Build a manifest's contents from its list of lines, separated by
`"\n"` and with no trailing newline.  Used to quantify over manifest
files whose line decomposition is a given list. -/
def joinLines : List String → String
  | [] => ""
  | [l] => l
  | l :: ls => l ++ "\n" ++ joinLines ls

example : joinLines ["a", "", "b"] = "a\n\nb" := by decide
example : pyStrip "  a b\t\n" = "a b" := by decide
example : pyStrip "\xa0a　" = "a" := by decide

/-! ### Unfolding lemmas for `splitlinesAux` -/

theorem splitlinesAux_nil (acc : List Char) :
    splitlinesAux acc [] = if acc.isEmpty then [] else [String.mk acc.reverse] := rfl

theorem splitlinesAux_one (acc : List Char) (c : Char) :
    splitlinesAux acc [c] =
      if isLineBreak c then [String.mk acc.reverse]
      else splitlinesAux (c :: acc) [] := rfl

theorem splitlinesAux_two (acc : List Char) (c d : Char) (cs : List Char) :
    splitlinesAux acc (c :: d :: cs) =
      if isLineBreak c then
        if c == '\r' && d == '\n' then String.mk acc.reverse :: splitlinesAux [] cs
        else String.mk acc.reverse :: splitlinesAux [] (d :: cs)
      else splitlinesAux (c :: acc) (d :: cs) := rfl

/-- A non-break character is accumulated into the current line. -/
theorem splitlinesAux_other (acc : List Char) (c : Char) (cs : List Char)
    (h : isLineBreak c = false) :
    splitlinesAux acc (c :: cs) = splitlinesAux (c :: acc) cs := by
  cases cs with
  | nil => simp [splitlinesAux_one, h]
  | cons d ds => simp [splitlinesAux_two, h]

/-- A `'\n'` always ends the current line (a `'\n'` is never the second
character of a `"\r\n"` boundary here, since the preceding character is
being scanned). -/
theorem splitlinesAux_lf (acc rest : List Char) :
    splitlinesAux acc ('\n' :: rest) = String.mk acc.reverse :: splitlinesAux [] rest := by
  cases rest with
  | nil => rfl
  | cons d ds => rfl

/-- The two-character boundary `"\r\n"` ends the current line once. -/
theorem splitlinesAux_crlf (acc rest : List Char) :
    splitlinesAux acc ('\r' :: '\n' :: rest)
      = String.mk acc.reverse :: splitlinesAux [] rest := rfl

/-! ### Core lemmas about `splitlines` -/

/-- Scanning a break-free prefix `x` followed by a `'\n'` emits the
accumulated characters and `x` as one line and continues after the
newline. -/
theorem splitlinesAux_append_lf :
    ∀ (x acc rest : List Char), (∀ c ∈ x, isLineBreak c = false) →
      splitlinesAux acc (x ++ '\n' :: rest)
        = String.mk (acc.reverse ++ x) :: splitlinesAux [] rest
  | [], acc, rest, _ => by
    rw [List.nil_append, splitlinesAux_lf]
    simp
  | c :: cs, acc, rest, h => by
    have hc := h c (List.mem_cons_self c cs)
    rw [List.cons_append, splitlinesAux_other acc c _ hc,
      splitlinesAux_append_lf cs (c :: acc) rest
        (fun d hd => h d (List.mem_cons_of_mem c hd))]
    simp

/-- Scanning a break-free remainder emits it (together with the
accumulated characters) as the final line, or nothing if both are empty. -/
theorem splitlinesAux_noBreak :
    ∀ (x acc : List Char), (∀ c ∈ x, isLineBreak c = false) →
      splitlinesAux acc x
        = if (acc.reverse ++ x).isEmpty then [] else [String.mk (acc.reverse ++ x)]
  | [], acc, _ => by
    cases acc <;> simp [splitlinesAux_nil]
  | c :: cs, acc, h => by
    have hc := h c (List.mem_cons_self c cs)
    rw [splitlinesAux_other acc c cs hc,
      splitlinesAux_noBreak cs (c :: acc)
        (fun d hd => h d (List.mem_cons_of_mem c hd))]
    have he : (c :: acc).reverse ++ cs = acc.reverse ++ c :: cs := by simp
    rw [he]

theorem data_eq_nil_iff (s : String) : s.data = [] ↔ s = "" := by
  constructor
  · intro h
    apply String.ext
    rw [h]
    try rfl
  · intro h
    rw [h]
    try rfl

theorem mk_data (s : String) : String.mk s.data = s := by
  cases s; rfl

/-- Splitting the join of break-free, non-empty lines recovers the
lines: `splitlines` is a left inverse of `joinLines` on line lists whose
last line is non-empty (here: all lines non-empty). -/
theorem splitlines_joinLines :
    ∀ ls : List String, (∀ l ∈ ls, ∀ c ∈ l.data, isLineBreak c = false) →
      (∀ l ∈ ls, l ≠ "") → splitlines (joinLines ls) = ls
  | [], _, _ => rfl
  | [l], h, hne => by
    show splitlinesAux [] (joinLines [l]).data = [l]
    have hjl : joinLines [l] = l := rfl
    rw [hjl, splitlinesAux_noBreak l.data [] (h l (by simp))]
    have hd : ¬ (l.data.isEmpty = true) := by
      rw [List.isEmpty_iff, data_eq_nil_iff]
      exact hne l (by simp)
    simp [hd, mk_data]
  | l :: l' :: ls, h, hne => by
    show splitlinesAux [] (joinLines (l :: l' :: ls)).data = l :: l' :: ls
    have hjl : joinLines (l :: l' :: ls) = l ++ "\n" ++ joinLines (l' :: ls) := rfl
    have hdata : (joinLines (l :: l' :: ls)).data
        = l.data ++ '\n' :: (joinLines (l' :: ls)).data := by
      rw [hjl, String.data_append, String.data_append]
      simp
    rw [hdata, splitlinesAux_append_lf l.data [] _ (h l (by simp))]
    have ih := splitlines_joinLines (l' :: ls)
      (fun d hd => h d (List.mem_cons_of_mem l hd))
      (fun d hd => hne d (List.mem_cons_of_mem l hd))
    rw [show splitlinesAux [] (joinLines (l' :: ls)).data
          = splitlines (joinLines (l' :: ls)) from rfl, ih]
    simp [mk_data]

/-- Splitting the join of break-free lines followed by a trailing
newline recovers the lines (blank lines allowed), provided there is at
least one line. -/
theorem splitlines_joinLines_nl :
    ∀ ls : List String, ls ≠ [] →
      (∀ l ∈ ls, ∀ c ∈ l.data, isLineBreak c = false) →
      splitlines (joinLines ls ++ "\n") = ls
  | [], hne, _ => absurd rfl hne
  | [l], _, h => by
    show splitlinesAux [] (joinLines [l] ++ "\n").data = [l]
    have hjl : joinLines [l] = l := rfl
    have hdata : (joinLines [l] ++ "\n").data = l.data ++ '\n' :: [] := by
      rw [hjl, String.data_append]
      try rfl
    rw [hdata, splitlinesAux_append_lf l.data [] [] (h l (by simp))]
    simp [mk_data, splitlinesAux_nil]
  | l :: l' :: ls, _, h => by
    show splitlinesAux [] (joinLines (l :: l' :: ls) ++ "\n").data = l :: l' :: ls
    have hjl : joinLines (l :: l' :: ls) = l ++ "\n" ++ joinLines (l' :: ls) := rfl
    have hdata : (joinLines (l :: l' :: ls) ++ "\n").data
        = l.data ++ '\n' :: (joinLines (l' :: ls) ++ "\n").data := by
      rw [hjl, String.data_append, String.data_append, String.data_append]
      simp
    rw [hdata, splitlinesAux_append_lf l.data [] _ (h l (by simp))]
    have ih := splitlines_joinLines_nl (l' :: ls) (by simp)
      (fun d hd => h d (List.mem_cons_of_mem l hd))
    rw [show splitlinesAux [] (joinLines (l' :: ls) ++ "\n").data
          = splitlines (joinLines (l' :: ls) ++ "\n") from rfl, ih]
    simp [mk_data]

/-- Every entry produced by `splitlinesAux` is free of line-break
characters, provided the accumulated current line is. -/
theorem noBreak_mem_splitlinesAux :
    ∀ (acc l : List Char), (∀ c ∈ acc, isLineBreak c = false) →
      ∀ e ∈ splitlinesAux acc l, ∀ c ∈ e.data, isLineBreak c = false := by
  intro acc l
  induction acc, l using splitlinesAux.induct with
  | case1 acc hacc =>
    intro hinv e he
    rw [splitlinesAux_nil] at he
    simp [hacc] at he
  | case2 acc hacc =>
    intro hinv e he
    rw [splitlinesAux_nil] at he
    simp [hacc] at he
    subst he
    intro c hc
    exact hinv c (by simpa using hc)
  | case3 acc c hc =>
    intro hinv e he
    rw [splitlinesAux_one] at he
    simp [hc] at he
    subst he
    intro x hx
    exact hinv x (by simpa using hx)
  | case4 acc c hc ih =>
    intro hinv e he
    rw [splitlinesAux_one] at he
    simp only [hc, if_false] at he
    refine ih ?_ e he
    intro d hd
    rcases List.mem_cons.mp hd with h | h
    · subst h
      simpa using hc
    · exact hinv d h
  | case5 acc c d cs hc hb ih =>
    intro hinv e he
    rw [splitlinesAux_two] at he
    simp only [hc, hb, if_true] at he
    rcases List.mem_cons.mp he with h | h
    · subst h
      intro x hx
      exact hinv x (by simpa using hx)
    · exact ih (by simp) e h
  | case6 acc c d cs hc hb ih =>
    intro hinv e he
    rw [splitlinesAux_two] at he
    simp only [hc, hb, if_true, if_false, Bool.not_eq_true] at he
    rcases List.mem_cons.mp he with h | h
    · subst h
      intro x hx
      exact hinv x (by simpa using hx)
    · exact ih (by simp) e h
  | case7 acc c d cs hc ih =>
    intro hinv e he
    rw [splitlinesAux_two] at he
    simp only [hc, if_false] at he
    refine ih ?_ e he
    intro x hx
    rcases List.mem_cons.mp hx with h | h
    · subst h
      simpa using hc
    · exact hinv x h

/-! ### Claims -/

/-- C2: for a missing (or unreadable) manifest file, descriptor
construction fails with the single error kind `ManifestUnreadable`, the
error propagates without local recovery, and no package registration
occurs. -/
theorem missing_manifest_fails_without_registration :
    runSetup none = Except.error PyError.manifestUnreadable ∧
    registrations none = [] :=
  ⟨rfl, rfl⟩

/-- C3: for every readable manifest file, descriptor construction
succeeds; under the precondition that the file is readable the error
branch is unreachable. -/
theorem readable_manifest_always_succeeds (contents : String) :
    (∃ m : Metadata, runSetup (some contents) = Except.ok m) ∧
    (∀ e : PyError, runSetup (some contents) ≠ Except.error e) :=
  ⟨⟨_, rfl⟩, fun _ h => nomatch h⟩

/-- C4: for the empty manifest file (contents `""`), the parsed
requirements sequence is empty and packaging succeeds with
`install_requires = []`. -/
theorem empty_manifest_empty_requirements :
    requirements "" = [] ∧
    runSetup (some "") = Except.ok
      { name := "Machine Efficiency Prediction", version := "0.1",
        author := "David G", packages := find_packages,
        install_requires := [] } := by
  have h : requirements "" = [] := by decide
  exact ⟨h, by simp [runSetup, h]⟩

/-- C5: the manifest `"numpy==1.21.0\npandas\n"` (with trailing newline)
parses to exactly `["numpy==1.21.0", "pandas"]`, with no trailing empty
entry. -/
theorem numpy_pandas_manifest_parses_exactly :
    requirements "numpy==1.21.0\npandas\n" = ["numpy==1.21.0", "pandas"] := by
  decide

/-- C8: for every readable manifest, the metadata record passed to the
packaging-registration call has exactly the fields `name`, `version`,
`author`, `packages` and `install_requires`, where `install_requires` is
the file's contents split on line boundaries in file order and the first
three fields are the fixed strings of `setup.py`. -/
theorem metadata_record_fields (contents : String) :
    runSetup (some contents) = Except.ok
      { name := "Machine Efficiency Prediction", version := "0.1",
        author := "David G", packages := find_packages,
        install_requires := splitlines contents } :=
  rfl

/-- C9: descriptor construction is deterministic: two runs on the same
unchanged manifest contents yield identical metadata records (same name,
version, author and `install_requires`). -/
theorem descriptor_construction_deterministic
    (contents : String) (m₁ m₂ : Metadata)
    (h₁ : runSetup (some contents) = Except.ok m₁)
    (h₂ : runSetup (some contents) = Except.ok m₂) :
    m₁ = m₂ ∧ m₁.name = m₂.name ∧ m₁.version = m₂.version ∧
      m₁.author = m₂.author ∧ m₁.install_requires = m₂.install_requires := by
  have hm : m₁ = m₂ := Except.ok.inj (h₁.symm.trans h₂)
  exact ⟨hm, by rw [hm], by rw [hm], by rw [hm], by rw [hm]⟩

theorem descriptor_construction_deterministic_witness :
    runSetup (some "numpy\n") = Except.ok
      { name := "Machine Efficiency Prediction", version := "0.1",
        author := "David G", packages := find_packages,
        install_requires := ["numpy"] } ∧
    ({ name := "Machine Efficiency Prediction", version := "0.1",
       author := "David G", packages := find_packages,
       install_requires := ["numpy"] } : Metadata)
      = { name := "Machine Efficiency Prediction", version := "0.1",
          author := "David G", packages := find_packages,
          install_requires := ["numpy"] } := by
  have h : runSetup (some "numpy\n") = Except.ok
      { name := "Machine Efficiency Prediction", version := "0.1",
        author := "David G", packages := find_packages,
        install_requires := ["numpy"] } := by
    simp [runSetup, show requirements "numpy\n" = ["numpy"] from by decide]
  exact ⟨h, (descriptor_construction_deterministic "numpy\n" _ _ h h).1⟩

/-- C10: no entry of the parsed requirements sequence contains a line
terminator (`'\n'` or `'\r'`): splitting removes the terminators,
including at `"\r\n"` and lone `"\r"` line endings. -/
theorem requirements_entries_no_terminators (s : String) (e : String)
    (he : e ∈ requirements s) : ∀ c ∈ e.data, c ≠ '\n' ∧ c ≠ '\r' := by
  intro c hc
  have h := noBreak_mem_splitlinesAux [] s.data (by simp) e he c hc
  refine ⟨?_, ?_⟩ <;> rintro rfl <;> simp [isLineBreak] at h

theorem requirements_entries_no_terminators_witness :
    ("a" ∈ requirements "a\rb\r\nc") ∧
      (∀ c ∈ ("a" : String).data, c ≠ '\n' ∧ c ≠ '\r') :=
  ⟨by decide, requirements_entries_no_terminators "a\rb\r\nc" "a" (by decide)⟩

/-- C1: for every well-formed manifest file with N non-empty lines, the
requirements sequence has exactly N entries, each equal to the
corresponding line with surrounding whitespace stripped.  The spec leaves
"well-formed" undefined; consistently with its data-model invariant
("each requirement line is non-empty") we take it as: every line is a
non-empty dependency specifier with no surrounding whitespace and no
embedded line-break character.  The manifest with lines `ls` is
`joinLines ls`, with or without a trailing newline. -/
theorem wellformed_manifest_requirements
    (ls : List String) (contents : String)
    (hwf : ∀ l ∈ ls, l ≠ "" ∧ pyStrip l = l ∧ ∀ c ∈ l.data, isLineBreak c = false)
    (hc : contents = joinLines ls ∨ (ls ≠ [] ∧ contents = joinLines ls ++ "\n")) :
    (requirements contents).length = (ls.filter (fun l => l ≠ "")).length ∧
    ∀ (i : ℕ) (hi : i < ls.length),
      (requirements contents).get? i = some (pyStrip (ls.get ⟨i, hi⟩)) := by
  have hsplit : requirements contents = ls := by
    rcases hc with h | ⟨hne, h⟩
    · rw [h]
      exact splitlines_joinLines ls (fun l hl => (hwf l hl).2.2)
        (fun l hl => (hwf l hl).1)
    · rw [h]
      exact splitlines_joinLines_nl ls hne (fun l hl => (hwf l hl).2.2)
  have hfilter : ls.filter (fun l => l ≠ "") = ls := by
    rw [List.filter_eq_self]
    intro a ha
    simpa using (hwf a ha).1
  refine ⟨by rw [hsplit, hfilter], ?_⟩
  intro i hi
  rw [hsplit, List.get?_eq_get hi, (hwf (ls.get ⟨i, hi⟩) (List.get_mem ls i hi)).2.1]

theorem wellformed_manifest_requirements_witness :
    (∀ l ∈ (["numpy==1.21.0", "pandas"] : List String),
        l ≠ "" ∧ pyStrip l = l ∧ ∀ c ∈ l.data, isLineBreak c = false) ∧
    ((requirements "numpy==1.21.0\npandas\n").length
        = ((["numpy==1.21.0", "pandas"] : List String).filter (fun l => l ≠ "")).length ∧
      ∀ (i : ℕ) (hi : i < (["numpy==1.21.0", "pandas"] : List String).length),
        (requirements "numpy==1.21.0\npandas\n").get? i
          = some (pyStrip ((["numpy==1.21.0", "pandas"] : List String).get ⟨i, hi⟩))) :=
  ⟨by decide,
    wellformed_manifest_requirements ["numpy==1.21.0", "pandas"]
      "numpy==1.21.0\npandas\n" (by decide) (Or.inr ⟨by decide, by decide⟩)⟩

/-- C6: for every manifest file containing a blank line, the parsed
requirements sequence contains an empty-string entry at the corresponding
position — blank lines are kept, not skipped.  The manifest with lines
`ls` (break-free, blank lines allowed) and a trailing newline is
`joinLines ls ++ "\n"`; if line `i` is blank, entry `i` is `""`. -/
theorem blank_line_yields_empty_entry
    (ls : List String) (i : ℕ) (hne : ls ≠ [])
    (hterm : ∀ l ∈ ls, ∀ c ∈ l.data, isLineBreak c = false)
    (hi : i < ls.length) (hblank : ls.get ⟨i, hi⟩ = "") :
    (requirements (joinLines ls ++ "\n")).get? i = some "" := by
  have hsplit : requirements (joinLines ls ++ "\n") = ls :=
    splitlines_joinLines_nl ls hne hterm
  rw [hsplit, List.get?_eq_get hi, hblank]

theorem blank_line_yields_empty_entry_witness :
    ((["a", "", "b"] : List String).get ⟨1, by decide⟩ = "") ∧
    (requirements (joinLines ["a", "", "b"] ++ "\n")).get? 1 = some "" :=
  ⟨by decide,
    blank_line_yields_empty_entry ["a", "", "b"] 1 (by decide) (by decide)
      (by decide) (by decide)⟩

/-- C7 as stated is false of the code: the claimed invariant "every entry
of the requirements list is non-empty" fails on any manifest with a blank
line.  Concretely, the manifest with contents `"\n"` parses to `[""]`,
whose only entry is empty. -/
theorem requirements_entry_nonempty_counterexample :
    requirements "\n" = [""] ∧ ¬ (∀ e ∈ requirements "\n", e ≠ "") := by
  constructor
  · decide
  · decide

/-- C7 amended: for every manifest none of whose lines is blank, every
entry of the constructed requirements list is a non-empty string.  (The
unrestricted invariant fails: blank lines produce empty entries, as the
spec's external-interface section itself states.) -/
theorem requirements_entries_nonempty_no_blank_lines
    (ls : List String) (hne : ls ≠ [])
    (h : ∀ l ∈ ls, l ≠ "" ∧ ∀ c ∈ l.data, isLineBreak c = false) :
    ∀ e ∈ requirements (joinLines ls ++ "\n"), e ≠ "" := by
  have hsplit : requirements (joinLines ls ++ "\n") = ls :=
    splitlines_joinLines_nl ls hne (fun l hl => (h l hl).2)
  rw [hsplit]
  intro e he
  exact (h e he).1

theorem requirements_entries_nonempty_no_blank_lines_witness :
    (∀ l ∈ (["numpy", "pandas"] : List String),
        l ≠ "" ∧ ∀ c ∈ l.data, isLineBreak c = false) ∧
    ∀ e ∈ requirements (joinLines ["numpy", "pandas"] ++ "\n"), e ≠ "" :=
  ⟨by decide,
    requirements_entries_nonempty_no_blank_lines ["numpy", "pandas"]
      (by decide) (by decide)⟩
